import Mathlib

/-!
Shallow embedding of the `webpush` Go library (package `webpush` and
subpackage `keys`) together with proofs about the claims of its
specification.  Bytes are modelled as `List Nat` (each entry < 256 where it
matters); Go slices become lists, Go errors become `Except String`, and the
external standard-library primitives (P-256 ECDH, AES-GCM, HKDF, SHA-256,
the random source, URL parsing and JSON marshalling) are abstracted as
fields of explicit environment structures, so that the control flow and
byte assembly of the repository code itself is embedded faithfully.
-/

namespace WebPush

/-- Byte strings are lists of naturals. -/
abbrev Bytes := List Nat

instance {ε α : Type} [DecidableEq ε] [DecidableEq α] :
    DecidableEq (Except ε α) := fun a b =>
  match a, b with
  | .error e, .error f =>
    match decEq e f with
    | isTrue h => isTrue (h ▸ rfl)
    | isFalse h => isFalse fun hh => h (Except.error.inj hh)
  | .error _, .ok _ => isFalse Except.noConfusion
  | .ok _, .error _ => isFalse Except.noConfusion
  | .ok x, .ok y =>
    match decEq x y with
    | isTrue h => isTrue (h ▸ rfl)
    | isFalse h => isFalse fun hh => h (Except.ok.inj hh)

/-- UTF-8 encoding of one character. -/
def utf8Bytes (c : Char) : List Nat :=
  let n := c.toNat
  if n < 128 then [n]
  else if n < 2048 then [192 + n / 64, 128 + n % 64]
  else if n < 65536 then [224 + n / 4096, 128 + n / 64 % 64, 128 + n % 64]
  else [240 + n / 262144, 128 + n / 4096 % 64, 128 + n / 64 % 64, 128 + n % 64]

/-- UTF-8 bytes of a string (Go `[]byte(s)`). -/
def strBytes (s : String) : Bytes :=
  s.data.flatMap utf8Bytes

/-- Big-endian 4-byte encoding of a natural number below 2^32
(Go `binary.BigEndian.AppendUint32`). -/
def be32 (n : Nat) : Bytes :=
  [n / 2 ^ 24 % 256, n / 2 ^ 16 % 256, n / 2 ^ 8 % 256, n % 256]

/-- The base64url alphabet (Go `base64.RawURLEncoding`). -/
def b64Alphabet : List Char :=
  "ABCDEFGHIJKLMNOPQRSTUVWXYZabcdefghijklmnopqrstuvwxyz0123456789-_".data

/-- Character of a 6-bit value in the base64url alphabet. -/
def b64Char (n : Nat) : Char := b64Alphabet.getD n 'A'

/-- Value of a base64url character, `none` for characters outside the
alphabet (Go `base64.RawURLEncoding.DecodeString` rejects them). -/
def b64Val (c : Char) : Option Nat :=
  if 'A' ≤ c ∧ c ≤ 'Z' then some (c.toNat - 65)
  else if 'a' ≤ c ∧ c ≤ 'z' then some (c.toNat - 97 + 26)
  else if '0' ≤ c ∧ c ≤ '9' then some (c.toNat - 48 + 52)
  else if c = '-' then some 62
  else if c = '_' then some 63
  else none

/-- Unpadded base64url encoding of bytes to characters. -/
def b64EncodeChars : Bytes → List Char
  | [] => []
  | [a] => [b64Char (a / 4 % 64), b64Char (a % 4 * 16)]
  | [a, b] =>
      [b64Char (a / 4 % 64), b64Char (a % 4 * 16 + b / 16),
       b64Char (b % 16 * 4)]
  | a :: b :: c :: rest =>
      b64Char (a / 4 % 64) :: b64Char (a % 4 * 16 + b / 16) ::
      b64Char (b % 16 * 4 + c / 64) :: b64Char (c % 64) ::
      b64EncodeChars rest

/-- Go `base64.RawURLEncoding.EncodeToString`. -/
def b64Encode (b : Bytes) : String := String.mk (b64EncodeChars b)

/-- Decode the 6-bit values of a base64url string back into bytes; a
trailing group of a single character is invalid (input length 1 mod 4). -/
def b64DecodeVals : List Nat → Option Bytes
  | [] => some []
  | [_] => none
  | [a, b] => some [a * 4 + b / 16]
  | [a, b, c] => some [a * 4 + b / 16, b % 16 * 16 + c / 4]
  | a :: b :: c :: d :: rest =>
      (b64DecodeVals rest).map
        (fun t => (a * 4 + b / 16) :: (b % 16 * 16 + c / 4) :: (c % 4 * 64 + d) :: t)

/-- Go `base64.RawURLEncoding.DecodeString`: `none` on invalid characters or
invalid length. -/
def b64Decode (s : String) : Option Bytes :=
  (s.data.mapM b64Val).bind b64DecodeVals

/-- Character-list comparison underlying `strings.HasPrefix`. -/
def charsPre : List Char → List Char → Bool
  | [], _ => true
  | _ :: _, [] => false
  | a :: ps, b :: ss => a = b && charsPre ps ss

/-- Go `strings.HasPrefix s p`: `p` is a leading substring of `s`. -/
def strHasPre (s p : String) : Bool := charsPre p.data s.data

/-- `Keys` from the Go source: the client's encryption keys. -/
structure Keys where
  P256dh : String
  Auth : String
  deriving DecidableEq, Repr

/-- `Subscription` from the Go source. -/
structure Subscription where
  Endpoint : String
  Keys : Keys
  deriving DecidableEq, Repr

/-- `Options` from the Go source. -/
structure Options where
  TTL : Int
  Urgency : String
  Topic : String
  deriving DecidableEq, Repr

/-- Environment abstracting the Go cryptographic standard library used by
`encrypt`: P-256 public-key parsing, the ephemeral key generation, ECDH,
the random salt, HKDF and AES-128-GCM sealing.  `ephPub` and `salt` are the
outcomes of the two draws from the random source (`none` models an RNG
failure). -/
structure CryptoEnv where
  pubKeyBytes : Bytes → Option Bytes
  ephPub : Option Bytes
  ecdhSecret : Bytes → Option Bytes
  salt : Option Bytes
  hkdfBytes : Bytes → Bytes → Bytes → Nat → Bytes
  gcmSeal : Bytes → Bytes → Bytes → Bytes

/-- The HKDF info for the PRK derivation
(`"WebPush: info\x00" ++ clientPub ++ serverPub`). -/
def prkInfo (clientPub serverPub : Bytes) : Bytes :=
  strBytes "WebPush: info" ++ [0] ++ clientPub ++ serverPub

/-- The content-encryption-key HKDF info (`"Content-Encoding: aes128gcm\x00"`). -/
def cekInfo : Bytes := strBytes "Content-Encoding: aes128gcm" ++ [0]

/-- The nonce HKDF info (`"Content-Encoding: nonce\x00"`). -/
def nonceInfo : Bytes := strBytes "Content-Encoding: nonce" ++ [0]

/-- The key-derivation and sealing tail of `encrypt` (the code after all
inputs have been decoded, parsed and drawn): derives PRK, CEK and nonce via
HKDF and seals `plaintext ++ [0x02]` with AES-128-GCM. -/
def sealRecord (env : CryptoEnv) (clientPub authBytes serverPub sharedSecret
    salt plaintext : Bytes) : Bytes :=
  let prk := env.hkdfBytes sharedSecret authBytes (prkInfo clientPub serverPub) 32
  let cek := env.hkdfBytes prk salt cekInfo 16
  let nonce := env.hkdfBytes prk salt nonceInfo 12
  env.gcmSeal cek nonce (plaintext ++ [2])

/-- `encrypt` from the Go source: RFC 8291 message encryption.  Decodes the
subscription keys, parses the client public key, draws an ephemeral key
pair and a salt, derives keys, seals, and assembles
`salt ‖ recordSize ‖ idLen ‖ serverPub ‖ ciphertext`. -/
def encrypt (env : CryptoEnv) (sub : Subscription) (plaintext : Bytes) :
    Except String Bytes :=
  match b64Decode sub.Keys.P256dh with
  | none => .error "decoding p256dh"
  | some p256dhBytes =>
  match b64Decode sub.Keys.Auth with
  | none => .error "decoding auth"
  | some authBytes =>
  match env.pubKeyBytes p256dhBytes with
  | none => .error "parsing client public key"
  | some clientPub =>
  match env.ephPub with
  | none => .error "generating server key"
  | some serverPub =>
  match env.ecdhSecret clientPub with
  | none => .error "computing shared secret"
  | some sharedSecret =>
  match env.salt with
  | none => .error "generating salt"
  | some salt =>
  let ciphertext := sealRecord env clientPub authBytes serverPub sharedSecret salt plaintext
  let recordSize := (ciphertext.length + 86) % 2 ^ 32
  let header := salt ++ be32 recordSize ++ [serverPub.length % 256] ++ serverPub
  .ok (header ++ ciphertext)

/-- The JWT claims map built by `createVAPIDHeader`
(`aud`, `exp`, `sub`, in the Go source a `map[string]interface\x7b\x7d`). -/
structure Claims where
  aud : String
  exp : Int
  sub : String
  deriving DecidableEq, Repr

/-- Environment abstracting the Go standard library used by
`createVAPIDHeader`: `url.Parse` (returning scheme and host on success),
the current Unix time in seconds, JSON marshalling of the claims map,
SHA-256, and the configured `Signer` (its `Sign` outcome and its public
key bytes). -/
structure VapidEnv where
  parseURL : String → Option (String × String)
  now : Int
  marshalClaims : Claims → String
  sha256 : Bytes → Bytes
  sign : Bytes → Except String Bytes
  signerPub : Bytes

/-- The JSON of the fixed JWT header map
(Go `json.Marshal` sorts the keys of `map[string]string`). -/
def headerJSON : String := "\x7b\"alg\":\"ES256\",\"typ\":\"JWT\"\x7d"

/-- `Client.createVAPIDHeader` from the Go source: parses the endpoint,
builds the audience as `scheme://host`, builds claims with
`exp = now + 12h`, signs the SHA-256 hash of the two base64url-encoded JSON
segments joined by `.`, and returns
`"vapid t=<jwt>, k=<base64url(signerPublicKey)>"`. -/
def createVAPIDHeader (env : VapidEnv) (subject endpoint : String) :
    Except String String :=
  match env.parseURL endpoint with
  | none => .error "parsing endpoint"
  | some (scheme, host) =>
    let audience := scheme ++ "://" ++ host
    let claims : Claims := ⟨audience, env.now + 12 * 3600, subject⟩
    let claimsJSON := env.marshalClaims claims
    let signingInput :=
      b64Encode (strBytes headerJSON) ++ "." ++ b64Encode (strBytes claimsJSON)
    let hash := env.sha256 (strBytes signingInput)
    match env.sign hash with
    | .error _ => .error "signing JWT"
    | .ok signature =>
      let jwt := signingInput ++ "." ++ b64Encode signature
      let pubKeyB64 := b64Encode env.signerPub
      .ok ("vapid t=" ++ jwt ++ ", k=" ++ pubKeyB64)

/-- An outbound HTTP request as assembled by `Client.Send`. -/
structure HttpRequest where
  method : String
  url : String
  body : Bytes
  headers : List (String × String)
  deriving DecidableEq, Repr

/-- Observable outcome of `Client.Send` up to the hand-off to the HTTP
transport: either an error returned before any request is issued, or the
request that is issued to the transport. -/
inductive SendAction where
  | failed (msg : String)
  | request (req : HttpRequest)
  deriving DecidableEq, Repr

/-- Environment for `Client.Send`: the crypto environment for `encrypt`,
the VAPID environment for `createVAPIDHeader`, and whether
`http.NewRequestWithContext` accepts the endpoint URL. -/
structure SendEnv where
  crypto : CryptoEnv
  vapid : VapidEnv
  newRequestOK : String → Bool

/-- `Client.Send` from the Go source, up to the hand-off to the HTTP
transport: applies the TTL default, encrypts the payload, builds the VAPID
header, and assembles the POST request with its headers. -/
def Send (env : SendEnv) (subject : String) (sub : Subscription)
    (payload : Bytes) (optsIn : Option Options) : SendAction :=
  let opts := optsIn.getD ⟨0, "", ""⟩
  let opts := if opts.TTL = 0 then { opts with TTL := 2419200 } else opts
  match encrypt env.crypto sub payload with
  | .error _ => .failed "encrypting payload"
  | .ok encrypted =>
  match createVAPIDHeader env.vapid subject sub.Endpoint with
  | .error _ => .failed "creating VAPID header"
  | .ok vapidHeader =>
  if env.newRequestOK sub.Endpoint then
    .request
      { method := "POST", url := sub.Endpoint, body := encrypted,
        headers :=
          [("Authorization", vapidHeader),
           ("Content-Encoding", "aes128gcm"),
           ("Content-Type", "application/octet-stream"),
           ("TTL", toString opts.TTL)] ++
          (if opts.Urgency ≠ "" then [("Urgency", opts.Urgency)] else []) ++
          (if opts.Topic ≠ "" then [("Topic", opts.Topic)] else []) }
  else .failed "creating request"

/-- Whether a `SendAction` issued a request to the transport. -/
def SendAction.issued : SendAction → Bool
  | .request _ => true
  | .failed _ => false

/-- The URL of the issued request, if one was issued. -/
def SendAction.reqURL : SendAction → Option String
  | .request r => some r.url
  | .failed _ => none

/-- `ParseSubscription` from the Go source.  The `json.Unmarshal` step is
abstracted as an `Option Subscription` input (`none` models a JSON that
does not unmarshal); the validations mirror the source in order. -/
def ParseSubscription (unmarshalled : Option Subscription) :
    Except String Subscription :=
  match unmarshalled with
  | none => .error "unmarshaling subscription"
  | some sub =>
    if sub.Endpoint = "" then .error "subscription endpoint is required"
    else if sub.Keys.P256dh = "" then .error "subscription p256dh key is required"
    else if sub.Keys.Auth = "" then .error "subscription auth key is required"
    else if ¬ strHasPre sub.Endpoint "https://" then
      .error "subscription endpoint must use HTTPS"
    else .ok sub

end WebPush

namespace Keys

open WebPush (Bytes b64Encode)

/-- A `keys.Signer` as far as the rotation state machine observes it: the
source compares signers only via `bytes.Equal` on their `PublicKey()`
bytes, so a signer is modelled by its public-key bytes. -/
structure KSigner where
  pubKey : Bytes
  deriving DecidableEq, Repr

/-- `keys.RotatingSigner` state: the current signer and the previous
signers, most recently retired first. -/
structure RotatingSigner where
  current : KSigner
  previous : List KSigner
  deriving DecidableEq, Repr

/-- `keys.NewRotatingSigner`. -/
def NewRotatingSigner (current : KSigner) : RotatingSigner :=
  ⟨current, []⟩

/-- `RotatingSigner.Rotate`: the old current moves to the front of
`previous`, the new key becomes current.  Total, as in the source. -/
def Rotate (r : RotatingSigner) (newKey : KSigner) : RotatingSigner :=
  ⟨newKey, r.current :: r.previous⟩

/-- `RotatingSigner.RemoveOldestKey`: drops the last entry of `previous`,
failing when `previous` is empty. -/
def RemoveOldestKey (r : RotatingSigner) : Except String RotatingSigner :=
  if r.previous = [] then .error "no previous keys to remove"
  else .ok ⟨r.current, r.previous.dropLast⟩

/-- `RotatingSigner.ClearPreviousKeys`. -/
def ClearPreviousKeys (r : RotatingSigner) : RotatingSigner :=
  ⟨r.current, []⟩

/-- The loop of `RotatingSigner.RemoveKey`: remove the first signer of the
list whose public key equals `pk`, `none` when no entry matches. -/
def removeFirstKey : List KSigner → Bytes → Option (List KSigner)
  | [], _ => none
  | s :: rest, pk =>
      if s.pubKey = pk then some rest
      else (removeFirstKey rest pk).map (fun l => s :: l)

/-- `RotatingSigner.RemoveKey` from the Go source: rejects the current key,
otherwise removes the first matching previous key, and fails when no
previous key matches. -/
def RemoveKey (r : RotatingSigner) (publicKey : Bytes) :
    Except String RotatingSigner :=
  if r.current.pubKey = publicKey then .error "cannot remove the current key"
  else
    match removeFirstKey r.previous publicKey with
    | some l => .ok ⟨r.current, l⟩
    | none => .error "key not found"

/-- `RotatingSigner.KeyCount`: one current key plus the previous keys. -/
def KeyCount (r : RotatingSigner) : Nat :=
  1 + r.previous.length

/-- `RotatingSigner.IsCurrentKey`: `bytes.Equal` against the current
public key. -/
def IsCurrentKey (r : RotatingSigner) (publicKey : Bytes) : Bool :=
  r.current.pubKey = publicKey

/-- `RemoveUnusedKeysResult` from the Go source: the removed and retained
base64url-encoded public keys. -/
structure RemoveUnusedKeysResult where
  RemovedKeys : List String
  RetainedKeys : List String
  deriving DecidableEq, Repr

/-- The loop of `RotatingSigner.RemoveUnusedKeys`: walks the previous
signers in order, asks the counter for each base64url-encoded key, fails
fast on the first counter error, and otherwise partitions into the
retained signers and the removed/retained key strings in traversal
order. -/
def removeUnusedLoop (counter : String → Except String Nat) :
    List KSigner → Except String (List KSigner × RemoveUnusedKeysResult)
  | [] => .ok ([], ⟨[], []⟩)
  | s :: rest =>
      let keyB64 := b64Encode s.pubKey
      match counter keyB64 with
      | .error e => .error e
      | .ok count =>
        match removeUnusedLoop counter rest with
        | .error e => .error e
        | .ok (retained, res) =>
          if count > 0 then
            .ok (s :: retained, ⟨res.RemovedKeys, keyB64 :: res.RetainedKeys⟩)
          else
            .ok (retained, ⟨keyB64 :: res.RemovedKeys, res.RetainedKeys⟩)

/-- `RotatingSigner.RemoveUnusedKeys` from the Go source: on success the
previous list is replaced by the retained signers; on a counter error the
error is returned and (in the stateful original) `r.previous` is left
untouched, which the functional embedding renders by returning no new
state. -/
def RemoveUnusedKeys (r : RotatingSigner)
    (counter : String → Except String Nat) :
    Except String (RotatingSigner × RemoveUnusedKeysResult) :=
  match removeUnusedLoop counter r.previous with
  | .error e => .error e
  | .ok (retained, res) => .ok (⟨r.current, retained⟩, res)

/-- One mutating operation on a `RotatingSigner`. -/
inductive KeyOp where
  | rotate (k : KSigner)
  | removeKey (pk : Bytes)
  | removeOldestKey
  | clearPreviousKeys
  | removeUnusedKeys (counter : String → Except String Nat)

/-- The state after one operation: fallible operations leave the state
unchanged on error, exactly as the Go methods return before mutating. -/
def applyOp (r : RotatingSigner) : KeyOp → RotatingSigner
  | .rotate k => Rotate r k
  | .removeKey pk =>
      match RemoveKey r pk with
      | .ok r2 => r2
      | .error _ => r
  | .removeOldestKey =>
      match RemoveOldestKey r with
      | .ok r2 => r2
      | .error _ => r
  | .clearPreviousKeys => ClearPreviousKeys r
  | .removeUnusedKeys counter =>
      match RemoveUnusedKeys r counter with
      | .ok (r2, _) => r2
      | .error _ => r

/-- The state after a sequence of operations. -/
def runOps (r : RotatingSigner) (ops : List KeyOp) : RotatingSigner :=
  ops.foldl applyOp r

/-- The specification's rotation-state invariant: the current key's public
key is not in the previous list. -/
def RotInv (r : RotatingSigner) : Prop :=
  r.current.pubKey ∉ r.previous.map KSigner.pubKey

instance (r : RotatingSigner) : Decidable (RotInv r) := by
  unfold RotInv; infer_instance

/-- A run is fresh when every rotated-in key's public key differs from all
keys (current and previous) of the state at the moment of that rotation. -/
def FreshRun (r : RotatingSigner) : List KeyOp → Prop
  | [] => True
  | op :: rest =>
      (match op with
       | .rotate k => k.pubKey ∉ r.current.pubKey :: r.previous.map KSigner.pubKey
       | _ => True) ∧ FreshRun (applyOp r op) rest

end Keys

namespace Fixtures

open WebPush Keys

/-- A concrete crypto environment: public keys are accepted when they are
65 bytes beginning with the uncompressed-point tag `0x04`, both random
draws succeed, and HKDF/GCM are concrete stand-ins of the right arity. -/
def tCryptoEnv : CryptoEnv where
  pubKeyBytes := fun b => if b.length = 65 ∧ b.headD 0 = 4 then some b else none
  ephPub := some (4 :: List.replicate 64 9)
  ecdhSecret := fun _ => some (List.replicate 32 1)
  salt := some (List.replicate 16 5)
  hkdfBytes := fun _ _ _ n => List.replicate n 3
  gcmSeal := fun _ _ p => p ++ List.replicate 16 0

/-- A second crypto environment differing from `tCryptoEnv` only in the
salt draw (a different outcome of the random source). -/
def tCryptoEnv2 : CryptoEnv :=
  { tCryptoEnv with salt := some (List.replicate 16 6) }

/-- A concrete URL parser agreeing with Go `url.Parse` on http/https URLs:
scheme and the host up to the first slash of the remainder. -/
def tParseURL (s : String) : Option (String × String) :=
  if strHasPre s "https://" then
    some ("https", String.mk ((s.data.drop 8).takeWhile (fun c => c ≠ '/')))
  else if strHasPre s "http://" then
    some ("http", String.mk ((s.data.drop 7).takeWhile (fun c => c ≠ '/')))
  else none

/-- A concrete VAPID environment with a signer that always succeeds. -/
def tVapidEnv : VapidEnv where
  parseURL := tParseURL
  now := 1700000000
  marshalClaims := fun c =>
    "\x7b\"aud\":\"" ++ c.aud ++ "\",\"exp\":" ++ toString c.exp ++
      ",\"sub\":\"" ++ c.sub ++ "\"\x7d"
  sha256 := fun b => (b ++ List.replicate 32 0).take 32
  sign := fun _ => .ok (List.replicate 64 1)
  signerPub := 4 :: List.replicate 64 9

/-- A concrete Send environment. -/
def tSendEnv : SendEnv where
  crypto := tCryptoEnv
  vapid := tVapidEnv
  newRequestOK := fun _ => true

/-- A base64url string decoding to a 65-byte value starting with `0x04`
(`"B"` followed by 86 `"A"`s). -/
def p256dhStr : String := String.mk ('B' :: List.replicate 86 'A')

/-- A base64url string decoding to a 16-byte value (22 `"A"`s). -/
def authStr16 : String := String.mk (List.replicate 22 'A')

/-- A base64url string decoding to a 5-byte value (7 `"A"`s). -/
def authStr5 : String := String.mk (List.replicate 7 'A')

/-- A subscription whose endpoint is not https but whose keys are valid. -/
def cexSub : Subscription :=
  ⟨"http://insecure.example.com/x", ⟨p256dhStr, authStr16⟩⟩

/-- A well-formed https subscription. -/
def okSub : Subscription :=
  ⟨"https://push.example.com/abc", ⟨p256dhStr, authStr16⟩⟩

/-- A subscription whose auth secret decodes to 5 bytes. -/
def shortAuthSub : Subscription :=
  ⟨"https://push.example.com/abc", ⟨p256dhStr, authStr5⟩⟩

/-- A subscription whose auth secret is not valid base64url. -/
def badAuthSub : Subscription :=
  ⟨"https://push.example.com/abc", ⟨p256dhStr, "!"⟩⟩

/-- A minimal crypto environment whose primitives return empty byte
strings, keeping concrete outputs small. -/
def wCryptoEnv : CryptoEnv where
  pubKeyBytes := fun _ => some []
  ephPub := some []
  ecdhSecret := fun _ => some []
  salt := some []
  hkdfBytes := fun _ _ _ _ => []
  gcmSeal := fun _ _ _ => []

/-- A minimal VAPID environment with empty-output primitives. -/
def wVapidEnv : VapidEnv where
  parseURL := tParseURL
  now := 0
  marshalClaims := fun _ => ""
  sha256 := fun _ => []
  sign := fun _ => .ok []
  signerPub := []

/-- A minimal Send environment. -/
def wSendEnv : SendEnv where
  crypto := wCryptoEnv
  vapid := wVapidEnv
  newRequestOK := fun _ => true

/-- A subscription with empty (hence trivially decodable) keys. -/
def wSub : Subscription := ⟨"https://h/x", ⟨"", ""⟩⟩

/-- Concrete signer keys for the rotation state machine. -/
def kA : KSigner := ⟨[4, 1]⟩

/-- A second concrete signer key. -/
def kB : KSigner := ⟨[4, 2]⟩

/-- A third concrete signer key. -/
def kC : KSigner := ⟨[4, 3]⟩

/-- A concrete subscription counter: zero subscriptions for `kB`'s key,
one for every other key. -/
def tCounter (k : String) : Except String Nat :=
  if k = b64Encode kB.pubKey then .ok 0 else .ok 1

/-- The counts `tCounter` reports, as a function of the signer. -/
def tCnt (s : KSigner) : Nat :=
  if b64Encode s.pubKey = b64Encode kB.pubKey then 0 else 1

/-- A counter that always fails. -/
def failCounter (_ : String) : Except String Nat := .error "boom"

/-- The decoded bytes of `p256dhStr`. -/
def pdA : Bytes := 4 :: List.replicate 64 0

/-- The decoded bytes of `authStr16`. -/
def auA : Bytes := List.replicate 16 0

/-- The ephemeral public key of `tCryptoEnv`. -/
def spA : Bytes := 4 :: List.replicate 64 9

/-- The shared secret of `tCryptoEnv`. -/
def ssA : Bytes := List.replicate 32 1

/-- The salt of `tCryptoEnv`. -/
def slA : Bytes := List.replicate 16 5

/-- The salt of `tCryptoEnv2`. -/
def slB : Bytes := List.replicate 16 6

/-- The sealed ciphertext of `tCryptoEnv` on plaintext `[1]`. -/
def ctA : Bytes := sealRecord tCryptoEnv pdA auA spA ssA slA [1]

/-- The sealed ciphertext of `tCryptoEnv2` on plaintext `[1]`. -/
def ctB : Bytes := sealRecord tCryptoEnv2 pdA auA spA ssA slB [1]

/-- The full encrypted record of `tCryptoEnv` on `okSub` and `[1]`. -/
def recA : Bytes := slA ++ be32 (ctA.length + 86) ++ [65] ++ spA ++ ctA

/-- The full encrypted record of `tCryptoEnv2` on `okSub` and `[1]`. -/
def recB : Bytes := slB ++ be32 (ctB.length + 86) ++ [65] ++ spA ++ ctB

/-- The VAPID header value `wVapidEnv` produces for `wSub`. -/
def wVH : String := "vapid t=eyJhbGciOiJFUzI1NiIsInR5cCI6IkpXVCJ9.., k="

end Fixtures

open WebPush Keys Fixtures

/-- A successful `encrypt` output begins with the drawn salt. -/
theorem encrypt_ok_salt_pre (env : CryptoEnv) (sub : Subscription)
    (pt r s : Bytes) (hs : env.salt = some s)
    (h : encrypt env sub pt = .ok r) : ∃ t, r = s ++ t := by
  unfold encrypt at h
  rcases hd : b64Decode sub.Keys.P256dh with _ | pd <;> simp only [hd] at h
  · exact Except.noConfusion h
  rcases ha : b64Decode sub.Keys.Auth with _ | au <;> simp only [ha] at h
  · exact Except.noConfusion h
  rcases hc : env.pubKeyBytes pd with _ | cpk <;> simp only [hc] at h
  · exact Except.noConfusion h
  rcases hp : env.ephPub with _ | sp <;> simp only [hp] at h
  · exact Except.noConfusion h
  rcases he : env.ecdhSecret cpk with _ | ss <;> simp only [he] at h
  · exact Except.noConfusion h
  simp only [hs] at h
  cases h
  simp only [List.append_assoc]
  exact ⟨_, rfl⟩

/-- `removeFirstKey` finds nothing when the key is absent. -/
theorem removeFirstKey_none (pk : Bytes) :
    ∀ l : List KSigner, pk ∉ l.map KSigner.pubKey →
      removeFirstKey l pk = none := by
  intro l
  induction l with
  | nil => intro _; rfl
  | cons s rest ih =>
    intro h
    simp only [List.map_cons, List.mem_cons] at h
    push_neg at h
    simp only [removeFirstKey]
    rw [if_neg (fun hc => h.1 hc.symm), ih h.2]
    rfl

/-- `removeFirstKey` removes exactly the first match. -/
theorem removeFirstKey_found (pk : Bytes) (s : KSigner) (hs : s.pubKey = pk) :
    ∀ l₁ l₂ : List KSigner, (∀ x ∈ l₁, x.pubKey ≠ pk) →
      removeFirstKey (l₁ ++ s :: l₂) pk = some (l₁ ++ l₂) := by
  intro l₁
  induction l₁ with
  | nil =>
    intro l₂ _
    simp only [List.nil_append, removeFirstKey, if_pos hs]
  | cons x rest ih =>
    intro l₂ h
    simp only [List.cons_append, removeFirstKey]
    rw [if_neg (h x (by simp))]
    simp only [List.append_eq]
    rw [ih l₂ (fun y hy => h y (by simp [hy]))]
    rfl

/-- A `removeFirstKey` result is a sublist of the input. -/
theorem removeFirstKey_sublist (pk : Bytes) :
    ∀ l l2 : List KSigner, removeFirstKey l pk = some l2 → l2.Sublist l := by
  intro l
  induction l with
  | nil => intro l2 h; exact Option.noConfusion h
  | cons s rest ih =>
    intro l2 h
    simp only [removeFirstKey] at h
    split_ifs at h with hc
    · cases h; exact (List.sublist_cons_self s rest)
    · rcases ho : removeFirstKey rest pk with _ | l3 <;>
        simp only [ho, Option.map] at h
      · exact Option.noConfusion h
      · cases h
        exact (ih l3 ho).cons₂ s

/-- The retained signers of `removeUnusedLoop` form a sublist of the
input. -/
theorem removeUnusedLoop_sublist (counter : String → Except String Nat) :
    ∀ l ret res, removeUnusedLoop counter l = .ok (ret, res) →
      ret.Sublist l := by
  intro l
  induction l with
  | nil => intro ret res h; cases h; exact List.Sublist.refl []
  | cons s rest ih =>
    intro ret res h
    simp only [removeUnusedLoop] at h
    rcases hc : counter (b64Encode s.pubKey) with e | n <;> simp only [hc] at h
    · exact Except.noConfusion h
    rcases hr : removeUnusedLoop counter rest with e | p <;> simp only [hr] at h
    · exact Except.noConfusion h
    rcases p with ⟨ret2, res2⟩
    split_ifs at h with hn
    · cases h; exact (ih ret2 res2 hr).cons₂ s
    · cases h; exact (ih ret2 res2 hr).cons s

/-- Every operation either pushes the old current key to the front of the
previous list (a rotation) or leaves the previous list a sublist of what
it was: the previous list is never reordered. -/
theorem applyOp_previous (r : RotatingSigner) (op : KeyOp) :
    (∃ k, op = .rotate k ∧ (applyOp r op).previous = r.current :: r.previous) ∨
      (applyOp r op).previous.Sublist r.previous := by
  cases op with
  | rotate k => exact .inl ⟨k, rfl, rfl⟩
  | removeKey pk =>
    right
    simp only [applyOp, RemoveKey]
    split_ifs with hc
    · exact List.Sublist.refl _
    · rcases ho : removeFirstKey r.previous pk with _ | l <;> simp only [ho]
      · exact List.Sublist.refl _
      · exact removeFirstKey_sublist pk r.previous l ho
  | removeOldestKey =>
    right
    simp only [applyOp, RemoveOldestKey]
    split_ifs with hc
    · exact List.Sublist.refl _
    · exact List.dropLast_sublist r.previous
  | clearPreviousKeys => exact .inr (List.nil_sublist _)
  | removeUnusedKeys counter =>
    right
    simp only [applyOp, RemoveUnusedKeys]
    rcases hr : removeUnusedLoop counter r.previous with e | p <;> simp only [hr]
    · exact List.Sublist.refl _
    · rcases p with ⟨ret, res⟩
      exact removeUnusedLoop_sublist counter r.previous ret res hr

/-- Only a rotation changes the current key. -/
theorem applyOp_current_or (r : RotatingSigner) (op : KeyOp) :
    (∃ k, op = .rotate k ∧ (applyOp r op).current = k) ∨
      (applyOp r op).current = r.current := by
  cases op with
  | rotate k => exact .inl ⟨k, rfl, rfl⟩
  | removeKey pk =>
    right
    simp only [applyOp, RemoveKey]
    split_ifs with hc
    · rfl
    · rcases ho : removeFirstKey r.previous pk with _ | l <;> simp only [ho]
  | removeOldestKey =>
    right
    simp only [applyOp, RemoveOldestKey]
    split_ifs with hc <;> rfl
  | clearPreviousKeys => exact .inr rfl
  | removeUnusedKeys counter =>
    right
    simp only [applyOp, RemoveUnusedKeys]
    rcases hr : removeUnusedLoop counter r.previous with e | p <;> simp only [hr]

/-- One fresh operation preserves the rotation invariant. -/
theorem rotInv_applyOp (r : RotatingSigner) (op : KeyOp) (hinv : RotInv r)
    (hfresh : match op with
      | .rotate k => k.pubKey ∉ r.current.pubKey :: r.previous.map KSigner.pubKey
      | _ => True) : RotInv (applyOp r op) := by
  cases op with
  | rotate k =>
    simp only [applyOp, Rotate, RotInv, List.map_cons, List.mem_cons] at *
    push_neg at hfresh ⊢
    exact hfresh
  | removeKey pk =>
    rcases applyOp_previous r (.removeKey pk) with ⟨k, hk, _⟩ | hsub
    · exact KeyOp.noConfusion hk
    · rcases applyOp_current_or r (.removeKey pk) with ⟨k, hk, _⟩ | hcur
      · exact KeyOp.noConfusion hk
      · unfold RotInv
        rw [hcur]
        exact fun hmem => hinv ((hsub.map KSigner.pubKey).subset hmem)
  | removeOldestKey =>
    rcases applyOp_previous r .removeOldestKey with ⟨k, hk, _⟩ | hsub
    · exact KeyOp.noConfusion hk
    · rcases applyOp_current_or r .removeOldestKey with ⟨k, hk, _⟩ | hcur
      · exact KeyOp.noConfusion hk
      · unfold RotInv
        rw [hcur]
        exact fun hmem => hinv ((hsub.map KSigner.pubKey).subset hmem)
  | clearPreviousKeys => simp [applyOp, ClearPreviousKeys, RotInv]
  | removeUnusedKeys counter =>
    rcases applyOp_previous r (.removeUnusedKeys counter) with ⟨k, hk, _⟩ | hsub
    · exact KeyOp.noConfusion hk
    · rcases applyOp_current_or r (.removeUnusedKeys counter) with ⟨k, hk, _⟩ | hcur
      · exact KeyOp.noConfusion hk
      · unfold RotInv
        rw [hcur]
        exact fun hmem => hinv ((hsub.map KSigner.pubKey).subset hmem)

/-- The rotation invariant is preserved along any fresh run. -/
theorem rotInv_runOps : ∀ (ops : List KeyOp) (r : RotatingSigner), RotInv r →
    FreshRun r ops → RotInv (runOps r ops) := by
  intro ops
  induction ops with
  | nil => intro r h _; exact h
  | cons op rest ih =>
    intro r hinv hfresh
    exact ih (applyOp r op) (rotInv_applyOp r op hinv hfresh.1) hfresh.2

/-- `removeUnusedLoop` partitions by the reported counts when every
counter call succeeds. -/
theorem removeUnusedLoop_ok (counter : String → Except String Nat)
    (cnt : KSigner → Nat) :
    ∀ l : List KSigner, (∀ s ∈ l, counter (b64Encode s.pubKey) = .ok (cnt s)) →
    removeUnusedLoop counter l =
      .ok (l.filter (fun s => 0 < cnt s),
           ⟨(l.filter (fun s => cnt s = 0)).map (fun s => b64Encode s.pubKey),
            (l.filter (fun s => 0 < cnt s)).map (fun s => b64Encode s.pubKey)⟩) := by
  intro l
  induction l with
  | nil => intro _; rfl
  | cons s rest ih =>
    intro h
    simp only [removeUnusedLoop, h s (by simp),
      ih (fun x hx => h x (by simp [hx]))]
    by_cases hn : 0 < cnt s
    · have hz : ¬ (cnt s = 0) := by omega
      simp [List.filter_cons, hn, hz]
    · have hz : cnt s = 0 := by omega
      simp [List.filter_cons, hn, hz]

/-- `removeUnusedLoop` fails fast with the first counter error. -/
theorem removeUnusedLoop_error (counter : String → Except String Nat)
    (e : String) (s : KSigner) (l₂ : List KSigner)
    (hs : counter (b64Encode s.pubKey) = .error e) :
    ∀ l₁ : List KSigner, (∀ x ∈ l₁, ∃ n, counter (b64Encode x.pubKey) = .ok n) →
      removeUnusedLoop counter (l₁ ++ s :: l₂) = .error e := by
  intro l₁
  induction l₁ with
  | nil => intro _; simp only [List.nil_append, removeUnusedLoop, hs]
  | cons x rest ih =>
    intro h
    obtain ⟨n, hn⟩ := h x (by simp)
    simp only [List.cons_append, removeUnusedLoop, List.append_eq, hn,
      ih (fun y hy => h y (by simp [hy]))]

/-- Claim C10: `ParseSubscription` succeeds exactly when the input
unmarshals (modelled as a `some` input) and endpoint, p256dh and auth are
non-empty and the endpoint begins with "https://"; on success it returns
the unmarshalled subscription unchanged. -/
theorem parseSubscription_ok_iff (u : Option Subscription) (s : Subscription) :
    ParseSubscription u = .ok s ↔
      u = some s ∧ s.Endpoint ≠ "" ∧ s.Keys.P256dh ≠ "" ∧ s.Keys.Auth ≠ "" ∧
      strHasPre s.Endpoint "https://" = true := by
  constructor
  · intro h
    cases u with
    | none => exact absurd h (by simp [ParseSubscription])
    | some sub =>
      simp only [ParseSubscription] at h
      split_ifs at h with h1 h2 h3 h4
      cases h
      exact ⟨rfl, h1, h2, h3, h4⟩
  · rintro ⟨rfl, h1, h2, h3, h4⟩
    simp [ParseSubscription, h1, h2, h3, h4]

/-- Witness for C10: the well-formed https subscription parses to
itself. -/
theorem parseSubscription_ok_iff_witness :
    ParseSubscription (some okSub) = .ok okSub :=
  (parseSubscription_ok_iff (some okSub) okSub).mpr
    ⟨rfl, by decide, by decide, by decide, by decide⟩

/-- Counterexample to C1 as stated: for a subscription whose endpoint is
`http://insecure.example.com/x` (valid keys otherwise), `Client.Send` does
not return an error before the network call — it issues the HTTP request,
to that very URL. -/
theorem send_http_endpoint_issues_request :
    strHasPre cexSub.Endpoint "https://" = false ∧
    (Send tSendEnv "mailto:test@example.com" cexSub [1] none).issued = true ∧
    (Send tSendEnv "mailto:test@example.com" cexSub [1] none).reqURL =
      some "http://insecure.example.com/x" :=
  ⟨by decide, by decide, by decide⟩

/-- Claim C1 (amended): `Client.Send` performs no endpoint-scheme
validation at all: whenever encryption and VAPID-header construction
succeed and the URL is accepted by the request constructor, `Send` issues
the POST to the subscription endpoint regardless of its scheme.  The
https:// requirement is enforced only by `ParseSubscription`. -/
theorem send_no_scheme_validation (env : SendEnv) (subject : String)
    (sub : Subscription) (payload : Bytes) (optsIn : Option Options)
    (enc : Bytes) (vh : String)
    (henc : encrypt env.crypto sub payload = .ok enc)
    (hvh : createVAPIDHeader env.vapid subject sub.Endpoint = .ok vh)
    (hreq : env.newRequestOK sub.Endpoint = true) :
    ∃ req, Send env subject sub payload optsIn = .request req ∧
      req.url = sub.Endpoint ∧ req.body = enc := by
  unfold Send
  rw [henc, hvh, hreq]
  simp only [if_true]
  exact ⟨_, rfl, rfl, rfl⟩

/-- Witness for C1 (amended), at a concrete environment and
subscription. -/
theorem send_no_scheme_validation_witness :
    ∃ req, Send wSendEnv "mailto:admin@example.com" wSub [] none =
        .request req ∧ req.url = wSub.Endpoint ∧ req.body = [0, 0, 0, 86, 0] :=
  send_no_scheme_validation wSendEnv "mailto:admin@example.com" wSub [] none
    [0, 0, 0, 86, 0] wVH (by decide) (by decide) rfl

/-- Claim C4: a successful `encrypt` returns exactly
`salt(16) ++ recordSize(4, big-endian) ++ [65] ++ ephemeralServerPub(65) ++
ciphertext`, where the ciphertext is the AES-128-GCM sealing of
`plaintext ++ [0x02]` under the derived CEK and nonce, and `recordSize`
is the ciphertext length plus 86. -/
theorem encrypt_record_layout (env : CryptoEnv) (sub : Subscription)
    (pt pd au cpk sp ss sl : Bytes)
    (hpd : b64Decode sub.Keys.P256dh = some pd)
    (hau : b64Decode sub.Keys.Auth = some au)
    (hcpk : env.pubKeyBytes pd = some cpk)
    (hsp : env.ephPub = some sp)
    (hss : env.ecdhSecret cpk = some ss)
    (hsl : env.salt = some sl)
    (hsl16 : sl.length = 16)
    (hsp65 : sp.length = 65)
    (hfit : (sealRecord env cpk au sp ss sl pt).length + 86 < 2 ^ 32) :
    encrypt env sub pt =
      .ok (sl ++ be32 ((sealRecord env cpk au sp ss sl pt).length + 86) ++
        [65] ++ sp ++ sealRecord env cpk au sp ss sl pt) ∧
    (sl ++ be32 ((sealRecord env cpk au sp ss sl pt).length + 86) ++
      [65] ++ sp ++ sealRecord env cpk au sp ss sl pt).take 16 = sl ∧
    sealRecord env cpk au sp ss sl pt =
      env.gcmSeal
        (env.hkdfBytes (env.hkdfBytes ss au (prkInfo cpk sp) 32) sl cekInfo 16)
        (env.hkdfBytes (env.hkdfBytes ss au (prkInfo cpk sp) 32) sl nonceInfo 12)
        (pt ++ [2]) := by
  refine ⟨?_, ?_, rfl⟩
  · unfold encrypt
    simp only [hpd, hau, hcpk, hsp, hss, hsl, hsp65, Nat.mod_eq_of_lt hfit]
  · simp only [List.append_assoc]
    rw [← hsl16, List.take_left]

/-- Witness for C4 at the concrete environment `tCryptoEnv`. -/
theorem encrypt_record_layout_witness :
    encrypt tCryptoEnv okSub [1] = .ok recA ∧ recA.take 16 = slA ∧
    ctA = tCryptoEnv.gcmSeal
      (tCryptoEnv.hkdfBytes (tCryptoEnv.hkdfBytes ssA auA (prkInfo pdA spA) 32)
        slA cekInfo 16)
      (tCryptoEnv.hkdfBytes (tCryptoEnv.hkdfBytes ssA auA (prkInfo pdA spA) 32)
        slA nonceInfo 12)
      ([1] ++ [2]) :=
  encrypt_record_layout tCryptoEnv okSub [1] pdA auA pdA spA ssA slA
    (by decide) (by decide) (by decide) rfl rfl rfl (by decide) (by decide)
    (by decide)

/-- Claim C5: for every endpoint that parses, `createVAPIDHeader` builds
claims with `aud = scheme://host`, `exp = now + 12h`, `sub = subject`, and
returns `"vapid t=<jwt>, k=<base64url(signerPublicKey)>"` where the JWT is
the three base64url segments joined with dots. -/
theorem createVAPIDHeader_shape (env : VapidEnv)
    (subject endpoint scheme host : String) (sig : Bytes)
    (hp : env.parseURL endpoint = some (scheme, host))
    (hs : env.sign (env.sha256 (strBytes
        (b64Encode (strBytes headerJSON) ++ "." ++
         b64Encode (strBytes (env.marshalClaims
           ⟨scheme ++ "://" ++ host, env.now + 12 * 3600, subject⟩))))) =
      .ok sig) :
    createVAPIDHeader env subject endpoint =
      .ok ("vapid t=" ++
        (b64Encode (strBytes headerJSON) ++ "." ++
         b64Encode (strBytes (env.marshalClaims
           ⟨scheme ++ "://" ++ host, env.now + 12 * 3600, subject⟩)) ++ "." ++
         b64Encode sig) ++ ", k=" ++ b64Encode env.signerPub) := by
  unfold createVAPIDHeader
  simp only [hp, hs]

/-- Witness for C5 at the concrete environment `tVapidEnv` and endpoint
`https://push.example.com/abc`. -/
theorem createVAPIDHeader_shape_witness :
    createVAPIDHeader tVapidEnv "mailto:admin@example.com"
        "https://push.example.com/abc" =
      .ok ("vapid t=" ++
        (b64Encode (strBytes headerJSON) ++ "." ++
         b64Encode (strBytes (tVapidEnv.marshalClaims
           ⟨"https" ++ "://" ++ "push.example.com",
            tVapidEnv.now + 12 * 3600, "mailto:admin@example.com"⟩)) ++ "." ++
         b64Encode (List.replicate 64 1)) ++ ", k=" ++
        b64Encode tVapidEnv.signerPub) :=
  createVAPIDHeader_shape tVapidEnv "mailto:admin@example.com"
    "https://push.example.com/abc" "https" "push.example.com"
    (List.replicate 64 1) (by decide) rfl

/-- Counterexample to C6 as stated: a subscription whose auth secret
decodes to 5 bytes (not 16) is not rejected — `encrypt` succeeds. -/
theorem encrypt_accepts_short_auth_secret :
    (b64Decode shortAuthSub.Keys.Auth).map List.length = some 5 ∧
    (encrypt tCryptoEnv shortAuthSub [1]).isOk = true :=
  ⟨by decide, by decide⟩

/-- Claim C6 (amended): `encrypt` rejects the auth secret only when it is
not valid base64url, and does so before any cryptographic work (the error
is the same for every crypto environment); the length of a successfully
decoded auth secret is never checked. -/
theorem encrypt_auth_decode_only (env : CryptoEnv) (sub : Subscription)
    (pt pd : Bytes)
    (hpd : b64Decode sub.Keys.P256dh = some pd)
    (hau : b64Decode sub.Keys.Auth = none) :
    encrypt env sub pt = .error "decoding auth" := by
  unfold encrypt
  rw [hpd, hau]

/-- Witness for C6 (amended) at a concrete malformed auth secret. -/
theorem encrypt_auth_decode_only_witness :
    encrypt tCryptoEnv badAuthSub [1] = .error "decoding auth" :=
  encrypt_auth_decode_only tCryptoEnv badAuthSub [1]
    (4 :: List.replicate 64 0) (by decide) (by decide)

/-- Claim C9 (two-run reading): two `encrypt` runs over the same
subscription and plaintext whose random draws produced different 16-byte
salts yield records beginning with those different salts, hence distinct
outputs. -/
theorem encrypt_distinct_salts_distinct_records (env1 env2 : CryptoEnv)
    (sub : Subscription) (pt r1 r2 s1 s2 : Bytes)
    (h1 : env1.salt = some s1) (h2 : env2.salt = some s2)
    (h1l : s1.length = 16) (h2l : s2.length = 16) (hne : s1 ≠ s2)
    (he1 : encrypt env1 sub pt = .ok r1)
    (he2 : encrypt env2 sub pt = .ok r2) :
    r1.take 16 = s1 ∧ r2.take 16 = s2 ∧ r1 ≠ r2 := by
  obtain ⟨t1, rfl⟩ := encrypt_ok_salt_pre env1 sub pt r1 s1 h1 he1
  obtain ⟨t2, rfl⟩ := encrypt_ok_salt_pre env2 sub pt r2 s2 h2 he2
  refine ⟨?_, ?_, ?_⟩
  · rw [← h1l, List.take_left]
  · rw [← h2l, List.take_left]
  · intro h
    apply hne
    have := congrArg (List.take 16) h
    rwa [← h1l, List.take_left, h1l, ← h2l, List.take_left] at this

/-- Witness for C9: the two concrete environments differing only in the
salt draw produce distinct records. -/
theorem encrypt_distinct_salts_distinct_records_witness :
    recA.take 16 = slA ∧ recB.take 16 = slB ∧ recA ≠ recB :=
  encrypt_distinct_salts_distinct_records tCryptoEnv tCryptoEnv2 okSub [1]
    recA recB slA slB rfl rfl (by decide) (by decide) (by decide)
    (by decide) (by decide)

/-- Counterexample to C7 as stated: rotating in a key whose public key
equals the current one leaves `IsCurrentKey(oldCurrent)` true, where the
claim requires it to become false. -/
theorem rotate_same_key_current_check :
    IsCurrentKey (Rotate (NewRotatingSigner kA) kA) kA.pubKey = true := by
  decide

/-- Claim C7 (amended): `Rotate` is total (never fails), increases
`KeyCount` by exactly one, makes the new key current, pushes the old
current key to the front of the previous list, and — provided the new
key's public key differs from the old current one — makes
`IsCurrentKey(oldCurrent)` false. -/
theorem rotate_effects (r : RotatingSigner) (k : KSigner) :
    KeyCount (Rotate r k) = KeyCount r + 1 ∧
    IsCurrentKey (Rotate r k) k.pubKey = true ∧
    (k.pubKey ≠ r.current.pubKey →
      IsCurrentKey (Rotate r k) r.current.pubKey = false) ∧
    (Rotate r k).previous = r.current :: r.previous := by
  refine ⟨?_, ?_, ?_, rfl⟩
  · simp only [KeyCount, Rotate, List.length_cons]
    omega
  · simp [IsCurrentKey, Rotate]
  · intro h; simp [IsCurrentKey, Rotate, h]

/-- Witness for C7 (amended) at concrete distinct keys. -/
theorem rotate_effects_witness :
    KeyCount (Rotate (NewRotatingSigner kA) kB) =
      KeyCount (NewRotatingSigner kA) + 1 ∧
    IsCurrentKey (Rotate (NewRotatingSigner kA) kB) kB.pubKey = true ∧
    IsCurrentKey (Rotate (NewRotatingSigner kA) kB) kA.pubKey = false ∧
    (Rotate (NewRotatingSigner kA) kB).previous = [kA] :=
  ⟨(rotate_effects (NewRotatingSigner kA) kB).1,
   (rotate_effects (NewRotatingSigner kA) kB).2.1,
   (rotate_effects (NewRotatingSigner kA) kB).2.2.1 (by decide),
   (rotate_effects (NewRotatingSigner kA) kB).2.2.2⟩

/-- Claim C8: `RemoveKey` on the current key always fails with the
cannot-remove-current error, on a key absent from the previous list (and
different from current) always fails with the key-not-found error, both
without changing state; on success exactly the first matching previous key
is removed, preserving the order of the remainder. -/
theorem removeKey_cases :
    (∀ (r : RotatingSigner) (pk : Bytes), r.current.pubKey = pk →
      RemoveKey r pk = .error "cannot remove the current key" ∧
      applyOp r (.removeKey pk) = r) ∧
    (∀ (r : RotatingSigner) (pk : Bytes), r.current.pubKey ≠ pk →
      pk ∉ r.previous.map KSigner.pubKey →
      RemoveKey r pk = .error "key not found" ∧
      applyOp r (.removeKey pk) = r) ∧
    (∀ (r : RotatingSigner) (pk : Bytes) (l₁ : List KSigner) (s : KSigner)
      (l₂ : List KSigner), r.previous = l₁ ++ s :: l₂ → s.pubKey = pk →
      (∀ x ∈ l₁, x.pubKey ≠ pk) → r.current.pubKey ≠ pk →
      RemoveKey r pk = .ok ⟨r.current, l₁ ++ l₂⟩) := by
  refine ⟨?_, ?_, ?_⟩
  · intro r pk h
    have h1 : RemoveKey r pk = .error "cannot remove the current key" := by
      simp [RemoveKey, h]
    exact ⟨h1, by simp [applyOp, h1]⟩
  · intro r pk hcur habs
    have h1 : RemoveKey r pk = .error "key not found" := by
      simp [RemoveKey, hcur, removeFirstKey_none pk r.previous habs]
    exact ⟨h1, by simp [applyOp, h1]⟩
  · intro r pk l₁ s l₂ hprev hs hl hcur
    simp [RemoveKey, hcur, hprev, removeFirstKey_found pk s hs l₁ l₂ hl]

/-- Witness for C8 at concrete states. -/
theorem removeKey_cases_witness :
    (RemoveKey ⟨kA, [kB]⟩ kA.pubKey = .error "cannot remove the current key" ∧
     applyOp ⟨kA, [kB]⟩ (.removeKey kA.pubKey) = ⟨kA, [kB]⟩) ∧
    (RemoveKey ⟨kA, [kB]⟩ kC.pubKey = .error "key not found" ∧
     applyOp ⟨kA, [kB]⟩ (.removeKey kC.pubKey) = ⟨kA, [kB]⟩) ∧
    RemoveKey ⟨kA, [kB, kC]⟩ kB.pubKey = .ok ⟨kA, [kC]⟩ :=
  ⟨removeKey_cases.1 ⟨kA, [kB]⟩ kA.pubKey rfl,
   removeKey_cases.2.1 ⟨kA, [kB]⟩ kC.pubKey (by decide) (by decide),
   removeKey_cases.2.2 ⟨kA, [kB, kC]⟩ kB.pubKey [] kB [kC] rfl rfl
     (by simp) (by decide)⟩

/-- Counterexample to C2 as stated: rotating in a key equal to the current
one is a reachable operation sequence after which the current key's public
key is present in the previous list. -/
theorem rotate_duplicate_breaks_invariant :
    ¬ RotInv (runOps (NewRotatingSigner kA) [KeyOp.rotate kA]) := by
  decide

/-- Claim C2 (amended): starting from `NewRotatingSigner` with one key,
along every operation sequence in which each rotated-in key's public key
is fresh (differs from the current and all previous keys at that moment),
the current key's public key is never present in the previous list;
unconditionally, each `Rotate` pushes the old current key to the front of
the previous list, and every other operation leaves the previous list a
sublist of what it was (changed only by explicit removal, never
reordered). -/
theorem rotation_invariant_fresh :
    (∀ (c : KSigner) (ops : List KeyOp),
      FreshRun (NewRotatingSigner c) ops →
      RotInv (runOps (NewRotatingSigner c) ops)) ∧
    (∀ (r : RotatingSigner) (k : KSigner),
      (Rotate r k).previous = r.current :: r.previous) ∧
    (∀ (r : RotatingSigner) (op : KeyOp),
      (∃ k, op = .rotate k ∧
        (applyOp r op).previous = r.current :: r.previous) ∨
      (applyOp r op).previous.Sublist r.previous) :=
  ⟨fun c ops h =>
      rotInv_runOps ops (NewRotatingSigner c)
        (by simp [RotInv, NewRotatingSigner]) h,
   fun r k => rfl, applyOp_previous⟩

/-- Witness for C2 (amended): a concrete fresh two-rotation run keeps the
invariant. -/
theorem rotation_invariant_fresh_witness :
    RotInv (runOps (NewRotatingSigner kA) [KeyOp.rotate kB, KeyOp.rotate kC]) :=
  rotation_invariant_fresh.1 kA [KeyOp.rotate kB, KeyOp.rotate kC]
    ⟨by decide, by decide, trivial⟩

/-- Claim C3: when every counter call succeeds, `RemoveUnusedKeys` removes
exactly the previous keys with a zero count and retains the others, the
returned removed/retained lists partition the previous keys' base64url
encodings (union is a permutation of the previous keys as of call start,
intersection empty); and when the counter fails on some key, the error is
returned with the previous list completely unchanged. -/
theorem removeUnusedKeys_partition :
    (∀ (r : RotatingSigner) (counter : String → Except String Nat)
      (cnt : KSigner → Nat),
      (∀ s ∈ r.previous, counter (b64Encode s.pubKey) = .ok (cnt s)) →
      RemoveUnusedKeys r counter =
        .ok (⟨r.current, r.previous.filter (fun s => 0 < cnt s)⟩,
          ⟨(r.previous.filter (fun s => cnt s = 0)).map
              (fun s => b64Encode s.pubKey),
           (r.previous.filter (fun s => 0 < cnt s)).map
              (fun s => b64Encode s.pubKey)⟩) ∧
      ((r.previous.filter (fun s => cnt s = 0)).map
          (fun s => b64Encode s.pubKey) ++
       (r.previous.filter (fun s => 0 < cnt s)).map
          (fun s => b64Encode s.pubKey)).Perm
        (r.previous.map (fun s => b64Encode s.pubKey)) ∧
      (∀ k, k ∈ (r.previous.filter (fun s => cnt s = 0)).map
          (fun s => b64Encode s.pubKey) →
        k ∉ (r.previous.filter (fun s => 0 < cnt s)).map
          (fun s => b64Encode s.pubKey))) ∧
    (∀ (r : RotatingSigner) (counter : String → Except String Nat)
      (e : String) (l₁ : List KSigner) (s : KSigner) (l₂ : List KSigner),
      r.previous = l₁ ++ s :: l₂ →
      (∀ x ∈ l₁, ∃ n, counter (b64Encode x.pubKey) = .ok n) →
      counter (b64Encode s.pubKey) = .error e →
      RemoveUnusedKeys r counter = .error e ∧
      applyOp r (.removeUnusedKeys counter) = r) := by
  constructor
  · intro r counter cnt h
    refine ⟨?_, ?_, ?_⟩
    · simp only [RemoveUnusedKeys, removeUnusedLoop_ok counter cnt r.previous h]
    · have hfn : (fun s : KSigner => decide (0 < cnt s)) =
        (fun s : KSigner => ! decide (cnt s = 0)) := by
        funext s
        rcases Nat.eq_zero_or_pos (cnt s) with hz | hp
        · simp [hz]
        · simp [hp, Nat.pos_iff_ne_zero.mp hp]
      rw [← List.map_append]
      apply List.Perm.map
      have := List.filter_append_perm
        (fun s : KSigner => decide (cnt s = 0)) r.previous
      rwa [← hfn] at this
    · intro k hk0 hk1
      simp only [List.mem_map, List.mem_filter] at hk0 hk1
      obtain ⟨s0, ⟨hs0m, hs0z⟩, hs0k⟩ := hk0
      obtain ⟨s1, ⟨hs1m, hs1p⟩, hs1k⟩ := hk1
      have e0 := h s0 hs0m
      have e1 := h s1 hs1m
      rw [hs0k] at e0
      rw [hs1k] at e1
      rw [e0] at e1
      have : cnt s0 = cnt s1 := Except.ok.inj e1
      simp only [decide_eq_true_eq] at hs0z hs1p
      omega
  · intro r counter e l₁ s l₂ hprev hok herr
    have hloop : removeUnusedLoop counter r.previous = .error e := by
      rw [hprev]
      exact removeUnusedLoop_error counter e s l₂ herr l₁ hok
    have h1 : RemoveUnusedKeys r counter = .error e := by
      simp only [RemoveUnusedKeys, hloop]
    exact ⟨h1, by simp only [applyOp, RemoveUnusedKeys, hloop]⟩

/-- Witness for C3 at concrete states, counters and counts. -/
theorem removeUnusedKeys_partition_witness :
    RemoveUnusedKeys ⟨kA, [kB, kC]⟩ tCounter =
      .ok (⟨kA, [kC]⟩, ⟨[b64Encode kB.pubKey], [b64Encode kC.pubKey]⟩) ∧
    RemoveUnusedKeys ⟨kA, [kB, kC]⟩ failCounter = .error "boom" ∧
    applyOp ⟨kA, [kB, kC]⟩ (.removeUnusedKeys failCounter) = ⟨kA, [kB, kC]⟩ := by
  have h1 := removeUnusedKeys_partition.1 ⟨kA, [kB, kC]⟩ tCounter tCnt (by decide)
  have h2 := removeUnusedKeys_partition.2 ⟨kA, [kB, kC]⟩ failCounter "boom"
    [] kB [kC] rfl (by simp) rfl
  exact ⟨h1.1.trans (by decide), h2.1, h2.2⟩
